import Mathlib

/-!
Verification of the api2go resource dispatcher (`api.go`) and its pagination,
content-negotiation and relationship-editing logic.  Go machine integers
(`uint64`) are modelled as `Nat` with explicit reduction modulo `2 ^ 64`
where the Go code can wrap; query-parameter strings are kept as `String`,
with `strconv.ParseUint`/`strconv.FormatUint` modelled over decimal digit
lists.
-/

namespace Api2go

/-- Decimal digit character for a value below ten (ten and above give '9'). -/
def digitChar (n : Nat) : Char :=
  if n = 0 then '0' else if n = 1 then '1' else if n = 2 then '2'
  else if n = 3 then '3' else if n = 4 then '4' else if n = 5 then '5'
  else if n = 6 then '6' else if n = 7 then '7' else if n = 8 then '8' else '9'

/-- Numeric value of a decimal digit character. -/
def charVal (c : Char) : Nat := c.toNat - 48

/-- Fuel-driven most-significant-first decimal digit expansion. -/
def decDigitsAux : Nat → Nat → List Char
  | 0, _ => []
  | fuel + 1, n =>
    if n < 10 then [digitChar n]
    else decDigitsAux fuel (n / 10) ++ [digitChar (n % 10)]

/-- Canonical decimal representation of a natural number, as written by Go's
`strconv.FormatUint(v, 10)`. -/
def natToDecimal (n : Nat) : String := String.mk (decDigitsAux (n + 1) n)

/-- Digit-list version of Go's `strconv.ParseUint(s, 10, 64)`: fails on the
empty string, on any non-digit character and on values outside `uint64`. -/
def parseUint64List (cs : List Char) : Option Nat :=
  if cs = [] then none
  else if cs.all Char.isDigit then
    if cs.foldl (fun a c => a * 10 + charVal c) 0 < 2 ^ 64 then
      some (cs.foldl (fun a c => a * 10 + charVal c) 0)
    else none
  else none

/-- Go's `strconv.ParseUint(s, 10, 64)`. -/
def parseUint64 (s : String) : Option Nat := parseUint64List s.data

/-- The modulus of Go's `uint64` arithmetic. -/
def uint64Max : Nat := 18446744073709551616

theorem uint64Max_eq : uint64Max = 2 ^ 64 := by norm_num [uint64Max]

/-- Wrapping `uint64` subtraction. -/
def usub64 (a b : Nat) : Nat := (a + uint64Max - b) % uint64Max

/-- Wrapping `uint64` addition. -/
def uadd64 (a b : Nat) : Nat := (a + b) % uint64Max

theorem digitChar_isDigit_charVal :
    ∀ n, n < 10 → (digitChar n).isDigit = true ∧ charVal (digitChar n) = n := by
  decide

theorem decDigitsAux_succ (fuel n : Nat) :
    decDigitsAux (fuel + 1) n =
      if n < 10 then [digitChar n]
      else decDigitsAux fuel (n / 10) ++ [digitChar (n % 10)] := rfl

theorem decDigitsAux_spec (fuel : Nat) :
    ∀ n, n < 10 ^ (fuel + 1) →
      decDigitsAux (fuel + 1) n ≠ [] ∧
      (decDigitsAux (fuel + 1) n).all Char.isDigit = true ∧
      (decDigitsAux (fuel + 1) n).foldl (fun a c => a * 10 + charVal c) 0 = n := by
  induction fuel with
  | zero =>
    intro n hn
    have h10 : n < 10 := by simpa using hn
    obtain ⟨hd, hv⟩ := digitChar_isDigit_charVal n h10
    rw [decDigitsAux_succ, if_pos h10]
    refine ⟨by simp, by simp [hd], by simp [hv]⟩
  | succ fuel ih =>
    intro n hn
    by_cases h10 : n < 10
    · obtain ⟨hd, hv⟩ := digitChar_isDigit_charVal n h10
      rw [decDigitsAux_succ, if_pos h10]
      refine ⟨by simp, by simp [hd], by simp [hv]⟩
    · have hdiv : n / 10 < 10 ^ (fuel + 1) := by
        rw [Nat.div_lt_iff_lt_mul (by norm_num)]
        calc n < 10 ^ (fuel + 1 + 1) := hn
          _ = 10 ^ (fuel + 1) * 10 := by ring
      obtain ⟨hne, hall, hval⟩ := ih (n / 10) hdiv
      obtain ⟨hd, hv⟩ := digitChar_isDigit_charVal (n % 10) (Nat.mod_lt _ (by norm_num))
      rw [decDigitsAux_succ, if_neg h10]
      refine ⟨by simp, ?_, ?_⟩
      · simp only [List.all_append, hall, Bool.true_and, List.all_cons,
          List.all_nil, hd, Bool.and_self]
      · rw [List.foldl_append, hval]
        simp only [List.foldl_cons, List.foldl_nil, hv]
        omega

theorem natToDecimal_spec (n : Nat) :
    decDigitsAux (n + 1) n ≠ [] ∧
    (decDigitsAux (n + 1) n).all Char.isDigit = true ∧
    (decDigitsAux (n + 1) n).foldl (fun a c => a * 10 + charVal c) 0 = n := by
  have hpow : n < 10 ^ (n + 1) := by
    calc n < 2 ^ n := Nat.lt_two_pow n
      _ ≤ 10 ^ n := Nat.pow_le_pow_left (by norm_num) n
      _ ≤ 10 ^ (n + 1) := Nat.pow_le_pow_right (by norm_num) (Nat.le_succ n)
  exact decDigitsAux_spec n n hpow

/-- Round trip: parsing the canonical decimal form of `n < 2 ^ 64` returns `n`,
exactly as `strconv.ParseUint(strconv.FormatUint(n, 10), 10, 64)` does. -/
theorem parseUint64_natToDecimal (n : Nat) (h : n < 2 ^ 64) :
    parseUint64 (natToDecimal n) = some n := by
  obtain ⟨hne, hall, hval⟩ := natToDecimal_spec n
  show parseUint64List (decDigitsAux (n + 1) n) = some n
  unfold parseUint64List
  rw [if_neg hne, if_pos hall, hval, if_pos h]

theorem natToDecimal_ne_empty (n : Nat) : natToDecimal n ≠ "" := by
  obtain ⟨hne, -, -⟩ := natToDecimal_spec n
  intro h
  exact hne (congrArg String.data h)

theorem natToDecimal_inj {n m : Nat} (hn : n < 2 ^ 64) (hm : m < 2 ^ 64)
    (h : natToDecimal n = natToDecimal m) : n = m := by
  have h1 := parseUint64_natToDecimal n hn
  have h2 := parseUint64_natToDecimal m hm
  rw [h, h2] at h1
  exact (Option.some.injEq _ _ ▸ h1).symm

theorem natToDecimal_eq_one_iff {n : Nat} (hn : n < 2 ^ 64) :
    natToDecimal n = "1" ↔ n = 1 := by
  have h1 : natToDecimal 1 = "1" := by decide
  constructor
  · intro h
    exact natToDecimal_inj hn (by norm_num) (h.trans h1.symm)
  · rintro rfl; exact h1

theorem natToDecimal_eq_zero_iff {n : Nat} (hn : n < 2 ^ 64) :
    natToDecimal n = "0" ↔ n = 0 := by
  have h0 : natToDecimal 0 = "0" := by decide
  constructor
  · intro h
    exact natToDecimal_inj hn (by norm_num) (h.trans h0.symm)
  · rintro rfl; exact h0

theorem two_pow_64_eq : (2 : Nat) ^ 64 = 18446744073709551616 := by norm_num

theorem usub64_eq {a b : Nat} (hb : b ≤ a) (ha : a < 2 ^ 64) :
    usub64 a b = a - b := by
  rw [two_pow_64_eq] at ha
  unfold usub64 uint64Max
  omega

theorem uadd64_eq {a b : Nat} (h : a + b < 2 ^ 64) : uadd64 a b = a + b := by
  rw [two_pow_64_eq] at h
  unfold uadd64 uint64Max
  omega

/-- Ceiling division as the Go code computes it (`count / size` plus one when a
remainder exists) agrees with `(count + size - 1) / size`. -/
theorem ceil_div_eq (c s : Nat) (hs : 0 < s) :
    c / s + (if c % s = 0 then 0 else 1) = (c + s - 1) / s := by
  rcases Nat.eq_zero_or_pos (c % s) with hr | hr
  · rw [if_pos hr]
    obtain ⟨q, rfl⟩ := Nat.dvd_of_mod_eq_zero hr
    rw [Nat.mul_div_cancel_left q hs]
    have hsq : s * q + s - 1 = s * q + (s - 1) := by omega
    rw [hsq, Nat.mul_add_div hs, Nat.div_eq_of_lt (by omega)]
  · rw [if_neg (by omega)]
    have hdm := Nat.div_add_mod c s
    set q := c / s with hq
    set r := c % s with hr'
    have hrs : r < s := Nat.mod_lt _ hs
    have h1 : c + s - 1 = s * q + (r + s - 1) := by omega
    rw [h1, Nat.mul_add_div hs]
    have h2 : r + s - 1 = (r - 1) + s * 1 := by omega
    have h3 : (r + s - 1) / s = 1 := by
      rw [h2, Nat.add_mul_div_left _ _ hs, Nat.div_eq_of_lt (by omega)]
    omega

instance exceptDecEq {ε α : Type} [DecidableEq ε] [DecidableEq α] :
    DecidableEq (Except ε α) := fun a b =>
  match a, b with
  | .error e1, .error e2 =>
    if h : e1 = e2 then isTrue (by rw [h]) else isFalse (by simp [h])
  | .ok a1, .ok a2 =>
    if h : a1 = a2 then isTrue (by rw [h]) else isFalse (by simp [h])
  | .error _, .ok _ => isFalse (by simp)
  | .ok _, .error _ => isFalse (by simp)

/-- Errors raised by the dispatcher.  `httpError` carries the explicit status
of `NewHTTPError`; `invalidStatusCode` is the formatted protocol-violation
error of the write verbs; `message` covers the remaining `errors.New` /
`fmt.Errorf` values. -/
inductive ApiError where
  | httpError (msg : String) (status : Nat)
  | invalidStatusCode (status : Nat) (resourceName : String) (verb : String)
  | message (msg : String)
deriving DecidableEq, Repr

/-- Status written by `handleError`: the carried status for an `HTTPError`,
500 for every other error value. -/
def errorResponseStatus : ApiError → Nat
  | .httpError _ st => st
  | _ => 500

/-- The struct `paginationQueryParams` of `api.go`: the raw string values of
the four `page[...]` query parameters ("" when absent). -/
structure PaginationParams where
  number : String
  size : String
  offset : String
  limit : String
deriving DecidableEq, Repr

/-- Translation of `paginationQueryParams.isValid`. -/
def PaginationParams.isValid (p : PaginationParams) : Bool :=
  if p.number == "" && p.size == "" && p.offset == "" && p.limit == "" then false
  else if p.number != "" && p.size != "" && p.offset == "" && p.limit == "" then true
  else if p.number == "" && p.size == "" && p.offset != "" && p.limit != "" then true
  else false

/-- The pagination links produced by `getLinks`, abstracted to the rewritten
`page[number]` / `page[offset]` parameter value of each emitted URL (the
surrounding URL text is the request path and the untouched other query
parameters, identical for all four links). -/
structure PageLinks where
  first : Option String
  prev : Option String
  next : Option String
  last : Option String
deriving DecidableEq, Repr

/-- The empty link map. -/
def emptyLinks : PageLinks := ⟨none, none, none, none⟩

/-- The `p.number != ""` branch of `paginationQueryParams.getLinks`: the
`page[number]`/`page[size]` strategy.  Go computes `count / size` with
`uint64` division, which panics when `size` is zero; the theorems below
therefore assume a positive size. -/
def getLinksNumberSize (number size : String) (count : Nat) :
    Except ApiError PageLinks :=
  match parseUint64 number with
  | none => .error (.message "strconv parse error")
  | some n =>
    let links1 := if number ≠ "1" then
        { emptyLinks with
            first := some "1"
            prev := some (natToDecimal (usub64 n 1)) }
      else emptyLinks
    match parseUint64 size with
    | none => .error (.message "strconv parse error")
    | some s =>
      let totalPages := count / s + (if count % s = 0 then 0 else 1)
      if n ≠ totalPages then
        .ok { links1 with
                next := some (natToDecimal (uadd64 n 1))
                last := some (natToDecimal totalPages) }
      else .ok links1

/-- The `else` branch of `paginationQueryParams.getLinks`: the
`page[offset]`/`page[limit]` strategy. -/
def getLinksOffsetLimit (offset limit : String) (count : Nat) :
    Except ApiError PageLinks :=
  match parseUint64 offset with
  | none => .error (.message "strconv parse error")
  | some o =>
    match parseUint64 limit with
    | none => .error (.message "strconv parse error")
    | some l =>
      let links1 := if offset ≠ "0" then
          { emptyLinks with
              first := some "0"
              prev := some (natToDecimal (if l > o then 0 else o - l)) }
        else emptyLinks
      if uadd64 o l < count then
        .ok { links1 with
                next := some (natToDecimal (uadd64 o l))
                last := some (natToDecimal (usub64 count l)) }
      else .ok links1

/-- Translation of `paginationQueryParams.getLinks` (the branch dispatch on
`p.number != ""`). -/
def PaginationParams.getLinks (p : PaginationParams) (count : Nat) :
    Except ApiError PageLinks :=
  if p.number ≠ "" then getLinksNumberSize p.number p.size count
  else getLinksOffsetLimit p.offset p.limit count

/-- C2: for pagination strategy A with `page[number] = n`, `page[size] = s`
over a backend count `c`, the planner computes `totalPages = ceil(c / s)`
(written `(c + s - 1) / s`), emits `first` = page 1 and `prev` = `n - 1`
exactly when `n ≠ 1`, and emits `next` = `n + 1` and `last` = `totalPages`
exactly when `n ≠ totalPages`; in particular `c = 25, s = 10, n = 2` yields
`prev = 1`, `next = 3`, `last = 3`, `n = 1` suppresses first/prev, and
`n = totalPages` suppresses next/last.  The page number and size are taken
in canonical decimal form; 1 ≤ n because pages are 1-indexed, 0 < s because
the Go code divides by the size, and the remaining bounds keep the values
inside `uint64`. -/
theorem c2_number_size_links (n s count : Nat)
    (hs0 : 0 < s) (hn1 : 1 ≤ n) (hn : n + 1 < 2 ^ 64) (hs : s < 2 ^ 64)
    (hc : count < 2 ^ 64) :
    (PaginationParams.getLinks ⟨natToDecimal n, natToDecimal s, "", ""⟩ count =
      .ok { first := if n = 1 then none else some "1"
            prev := if n = 1 then none else some (natToDecimal (n - 1))
            next := if n = (count + s - 1) / s then none
                    else some (natToDecimal (n + 1))
            last := if n = (count + s - 1) / s then none
                    else some (natToDecimal ((count + s - 1) / s)) }) ∧
    PaginationParams.getLinks ⟨"2", "10", "", ""⟩ 25 =
      .ok ⟨some "1", some "1", some "3", some "3"⟩ ∧
    PaginationParams.getLinks ⟨"1", "10", "", ""⟩ 25 =
      .ok ⟨none, none, some "2", some "3"⟩ ∧
    PaginationParams.getLinks ⟨"3", "10", "", ""⟩ 25 =
      .ok ⟨some "1", some "2", none, none⟩ := by
  refine ⟨?_, by decide, by decide, by decide⟩
  have hn' : n < 2 ^ 64 := Nat.lt_of_succ_lt hn
  have hceil := ceil_div_eq count s hs0
  have hsub : usub64 n 1 = n - 1 := usub64_eq hn1 hn'
  have hadd : uadd64 n 1 = n + 1 := uadd64_eq hn
  have hcond : (natToDecimal n ≠ "1") ↔ (n ≠ 1) :=
    not_congr (natToDecimal_eq_one_iff hn')
  simp only [PaginationParams.getLinks]
  rw [if_pos (natToDecimal_ne_empty n)]
  unfold getLinksNumberSize
  rw [parseUint64_natToDecimal n hn', parseUint64_natToDecimal s hs]
  rw [← hceil]
  simp only [hcond, hsub, hadd]
  set tp := count / s + (if count % s = 0 then 0 else 1) with htp
  split_ifs <;> first | rfl | (exfalso; omega)

/-- Witness for C2 at `n = 2`, `s = 10`, `count = 25`. -/
theorem c2_number_size_links_witness :
    PaginationParams.getLinks ⟨natToDecimal 2, natToDecimal 10, "", ""⟩ 25 =
      .ok { first := some "1"
            prev := some (natToDecimal 1)
            next := some (natToDecimal 3)
            last := some (natToDecimal ((25 + 10 - 1) / 10)) } :=
  (c2_number_size_links 2 10 25 (by norm_num) (by norm_num) (by norm_num)
    (by norm_num) (by norm_num)).1

/-- C3: for pagination strategy B with `page[offset] = o`, `page[limit] = l`
over a backend count `c`, the planner emits `first` with offset 0 and `prev`
with offset `max(0, o - l)` (truncated subtraction `o - l` on `Nat`) exactly
when `o ≠ 0`, and emits `next` with offset `o + l` and `last` with offset
`c - l` exactly when `o + l < c`; in particular `c = 25, l = 10, o = 10`
yields first offset 0, prev offset 0, next offset 20, last offset 15. -/
theorem c3_offset_limit_links (o l count : Nat)
    (ho : o < 2 ^ 64) (hl : l < 2 ^ 64) (hol : o + l < 2 ^ 64)
    (hc : count < 2 ^ 64) :
    (PaginationParams.getLinks ⟨"", "", natToDecimal o, natToDecimal l⟩ count =
      .ok { first := if o = 0 then none else some "0"
            prev := if o = 0 then none else some (natToDecimal (o - l))
            next := if o + l < count then some (natToDecimal (o + l)) else none
            last := if o + l < count then some (natToDecimal (count - l))
                    else none }) ∧
    PaginationParams.getLinks ⟨"", "", "10", "10"⟩ 25 =
      .ok ⟨some "0", some "0", some "20", some "15"⟩ := by
  refine ⟨?_, by decide⟩
  have hadd : uadd64 o l = o + l := uadd64_eq hol
  have hcond : (natToDecimal o ≠ "0") ↔ (o ≠ 0) :=
    not_congr (natToDecimal_eq_zero_iff ho)
  have hprev : (if l > o then 0 else o - l) = o - l := by
    rcases le_or_lt l o with h | h
    · rw [if_neg (not_lt.2 h)]
    · rw [if_pos h, Nat.sub_eq_zero_of_le h.le]
  simp only [PaginationParams.getLinks]
  rw [if_neg (by simp)]
  unfold getLinksOffsetLimit
  rw [parseUint64_natToDecimal o ho, parseUint64_natToDecimal l hl]
  simp only [hadd, hcond, hprev]
  by_cases h2 : o + l < count
  · have hsubc : usub64 count l = count - l := usub64_eq (by omega) hc
    simp only [hsubc]
    split_ifs <;> first | rfl | (exfalso; omega)
  · split_ifs <;> first | rfl | (exfalso; omega)

/-- Witness for C3 at `o = 10`, `l = 10`, `count = 25`. -/
theorem c3_offset_limit_links_witness :
    PaginationParams.getLinks ⟨"", "", natToDecimal 10, natToDecimal 10⟩ 25 =
      .ok { first := some "0"
            prev := some (natToDecimal 0)
            next := some (natToDecimal 20)
            last := some (natToDecimal 15) } :=
  (c3_offset_limit_links 10 10 25 (by norm_num) (by norm_num) (by norm_num)
    (by norm_num)).1

/-- A parsed URL query in the shape of Go's `url.Values`: each key with its
ordered list of values. -/
abbrev Query : Type := List (String × List String)

/-- Go's `url.Values.Get`: the first value of the key, or "" when the key is
absent or has no values. -/
def queryGet (query : Query) (k : String) : String :=
  match List.find? (fun kv => kv.1 == k) query with
  | some (_, v :: _) => v
  | _ => ""

/-- Translation of `newPaginationQueryParams`. -/
def newPaginationQueryParams (query : Query) : PaginationParams :=
  ⟨queryGet query "page[number]", queryGet query "page[size]",
   queryGet query "page[offset]", queryGet query "page[limit]"⟩

/-- Splits a character list at every comma; the accumulator holds the current
field reversed. -/
def commaSplitChars : List Char → List Char → List String
  | [], acc => [String.mk acc.reverse]
  | c :: rest, acc =>
    if c = ',' then String.mk acc.reverse :: commaSplitChars rest []
    else commaSplitChars rest (c :: acc)

/-- Go's `strings.Split(s, ",")`. -/
def commaSplit (s : String) : List String := commaSplitChars s.data []

/-- Translation of the query-parameter loop of `buildRequest`: every query
key is put into the backend request with its first value split on commas
(`values[0]`; `url.Query()` never produces an empty value list, which `headD`
models). -/
def buildRequestParams (query : Query) : Query :=
  List.map (fun kv => (kv.1, commaSplit (kv.2.headD ""))) query

/-- The listing capabilities of a backend source, as the two interface
assertions of `handleIndex` see them: present or absent, and when present the
outcome the call would produce for the current request (`PaginatedFindAll`
also reports the total count). -/
structure IndexSource (α : Type) where
  paginatedFindAll : Option (Except ApiError (Nat × α))
  findAll : Option (Except ApiError α)

/-- A successful Index response: payload plus pagination links and status for
the paginated branch, payload plus status for the plain branch. -/
inductive IndexOutcome (α : Type) where
  | paginated (payload : α) (links : PageLinks) (status : Nat)
  | plain (payload : α) (status : Nat)
deriving DecidableEq, Repr

/-- Translation of `handleIndex`. -/
def handleIndex {α : Type} (src : IndexSource α) (query : Query) :
    Except ApiError (IndexOutcome α) :=
  let pagination := newPaginationQueryParams query
  if pagination.isValid then
    match src.paginatedFindAll with
    | none =>
      .error (.httpError
        "Resource does not implement the PaginatedFindAll interface" 404)
    | some (.error e) => .error e
    | some (.ok (count, payload)) =>
      match pagination.getLinks count with
      | .error e => .error e
      | .ok links => .ok (.paginated payload links 200)
  else
    match src.findAll with
    | none =>
      .error (.httpError "Resource does not implement the FindAll interface" 404)
    | some (.error e) => .error e
    | some (.ok payload) => .ok (.plain payload 200)

/-- C4: pagination parameters are valid exactly when number and size are both
set with offset and limit both empty, or offset and limit both set with
number and size both empty; a valid combination requires the
`PaginatedFindAll` capability (404 when absent), any other combination falls
back to the plain `FindAll` capability (same 404 on absence), including the
mixed combination number present, limit present, size absent. -/
theorem c4_index_pagination_validity {α : Type} :
    (∀ p : PaginationParams, p.isValid = true ↔
      ((p.number ≠ "" ∧ p.size ≠ "" ∧ p.offset = "" ∧ p.limit = "") ∨
       (p.number = "" ∧ p.size = "" ∧ p.offset ≠ "" ∧ p.limit ≠ ""))) ∧
    (∀ (src : IndexSource α) (query : Query),
      (newPaginationQueryParams query).isValid = true →
      src.paginatedFindAll = none →
      handleIndex src query =
        .error (.httpError
          "Resource does not implement the PaginatedFindAll interface" 404)) ∧
    (∀ (src : IndexSource α) (query : Query),
      (newPaginationQueryParams query).isValid = false →
      src.findAll = none →
      handleIndex src query =
        .error (.httpError
          "Resource does not implement the FindAll interface" 404)) ∧
    (∀ (src : IndexSource α) (query : Query) (payload : α),
      (newPaginationQueryParams query).isValid = false →
      src.findAll = some (.ok payload) →
      handleIndex src query = .ok (.plain payload 200)) ∧
    (newPaginationQueryParams
      [("page[number]", ["1"]), ("page[limit]", ["10"])]).isValid = false := by
  refine ⟨?_, ?_, ?_, ?_, by decide⟩
  · intro p
    by_cases ha : p.number = "" <;> by_cases hb : p.size = "" <;>
      by_cases hc' : p.offset = "" <;> by_cases hd : p.limit = "" <;>
      simp [PaginationParams.isValid, beq_iff_eq, bne_iff_ne, ha, hb, hc', hd]
  · intro src query hvalid hcap
    unfold handleIndex
    rw [if_pos hvalid, hcap]
  · intro src query hvalid hcap
    unfold handleIndex
    rw [if_neg (by rw [hvalid]; exact Bool.false_ne_true), hcap]
  · intro src query payload hvalid hcap
    unfold handleIndex
    rw [if_neg (by rw [hvalid]; exact Bool.false_ne_true), hcap]

/-- Witness for C4: a valid number/size combination over a source without the
paginated capability fails 404, and the mixed combination falls back to the
plain capability. -/
theorem c4_index_pagination_validity_witness :
    handleIndex (α := Nat) ⟨none, some (.ok 7)⟩
        [("page[number]", ["1"]), ("page[size]", ["10"])] =
      .error (.httpError
        "Resource does not implement the PaginatedFindAll interface" 404) ∧
    handleIndex (α := Nat) ⟨none, some (.ok 7)⟩
        [("page[number]", ["1"]), ("page[limit]", ["10"])] =
      .ok (.plain 7 200) :=
  ⟨(c4_index_pagination_validity (α := Nat)).2.1 ⟨none, some (.ok 7)⟩
      [("page[number]", ["1"]), ("page[size]", ["10"])] (by decide) rfl,
   (c4_index_pagination_validity (α := Nat)).2.2.2.1 ⟨none, some (.ok 7)⟩
      [("page[number]", ["1"]), ("page[limit]", ["10"])] 7 (by decide) rfl⟩

/-- C10: every query key is passed through to the backend request with its
value split on commas — in particular every key other than the four
pagination parameters — while the pagination behaviour of an Index request
depends only on the four `page[...]` parameters. -/
theorem c10_query_passthrough :
    (∀ (query : Query) (k : String) (vs : List String),
      (k, vs) ∈ query →
      k ∉ ["page[number]", "page[size]", "page[offset]", "page[limit]"] →
      (k, commaSplit (vs.headD "")) ∈ buildRequestParams query) ∧
    (∀ q1 q2 : Query,
      queryGet q1 "page[number]" = queryGet q2 "page[number]" →
      queryGet q1 "page[size]" = queryGet q2 "page[size]" →
      queryGet q1 "page[offset]" = queryGet q2 "page[offset]" →
      queryGet q1 "page[limit]" = queryGet q2 "page[limit]" →
      newPaginationQueryParams q1 = newPaginationQueryParams q2) := by
  constructor
  · intro query k vs hmem _
    exact List.mem_map.2 ⟨(k, vs), hmem, rfl⟩
  · intro q1 q2 h1 h2 h3 h4
    unfold newPaginationQueryParams
    rw [h1, h2, h3, h4]

/-- Witness for C10: a `filter[user]` parameter is passed through comma-split.
-/
theorem c10_query_passthrough_witness :
    ("filter[user]", ["1", "2"]) ∈
      buildRequestParams [("filter[user]", ["1,2"]), ("page[number]", ["3"])] :=
  c10_query_passthrough.1 [("filter[user]", ["1,2"]), ("page[number]", ["3"])]
    "filter[user]" ["1,2"] (by decide) (by decide)

/-- A backend response as the dispatcher reads it: `Result()` (`none` when the
backend returned no object) and `StatusCode()`. -/
structure Responder (α : Type) where
  result : Option α
  status : Nat
deriving DecidableEq, Repr

/-- A successful `handleCreate` response: the `Location` header value, the
written status and the echoed body when one is written. -/
structure CreateOutput (α : Type) where
  location : String
  status : Nat
  body : Option α
deriving DecidableEq, Repr

/-- Translation of `handleCreate` from the `res.source.Create` call onward:
`basePath` is the API prefix, `getID` the created object's identity accessor.
The `Location` header is `prefix + res.name + "/" + result.GetID()`, and the
status switch accepts 201 (echo), 204 and 202 (status forwarded, no body),
reporting every other status as a formatted error. -/
def handleCreate {α : Type} (basePath resourceName : String) (getID : α → String)
    (resp : Responder α) : Except ApiError (CreateOutput α) :=
  match resp.result with
  | none =>
    .error (.message ("Expected one newly created object by resource " ++ resourceName))
  | some obj =>
    let loc := basePath ++ resourceName ++ "/" ++ getID obj
    if resp.status = 201 then .ok ⟨loc, 201, some obj⟩
    else if resp.status = 204 then .ok ⟨loc, 204, none⟩
    else if resp.status = 202 then .ok ⟨loc, 202, none⟩
    else .error (.invalidStatusCode resp.status resourceName "Create")

/-- C1: Create accepts only the backend statuses 201, 202 and 204 — on 201
the created object is echoed with status 201 and a `Location` header equal to
prefix + resource name + "/" + id, on 202 and 204 the backend status is
forwarded with no body, and any other backend status (for example 418)
becomes a named error which `handleError` writes at status 500, never a
2xx success. -/
theorem c1_create_status_machine {α : Type} (basePath resourceName : String)
    (getID : α → String) (obj : α) (st : Nat) :
    (st = 201 →
      handleCreate basePath resourceName getID ⟨some obj, st⟩ =
        .ok ⟨basePath ++ resourceName ++ "/" ++ getID obj, 201, some obj⟩) ∧
    (st = 202 ∨ st = 204 →
      handleCreate basePath resourceName getID ⟨some obj, st⟩ =
        .ok ⟨basePath ++ resourceName ++ "/" ++ getID obj, st, none⟩) ∧
    (st ≠ 201 → st ≠ 202 → st ≠ 204 →
      handleCreate basePath resourceName getID ⟨some obj, st⟩ =
        .error (.invalidStatusCode st resourceName "Create") ∧
      errorResponseStatus (.invalidStatusCode st resourceName "Create") = 500) ∧
    (∀ out, handleCreate basePath resourceName getID ⟨some obj, 418⟩ ≠ .ok out) := by
  refine ⟨?_, ?_, ?_, ?_⟩
  · rintro rfl; rfl
  · rintro (rfl | rfl) <;> rfl
  · intro h1 h2 h3
    refine ⟨?_, rfl⟩
    simp only [handleCreate]
    rw [if_neg h1, if_neg h3, if_neg h2]
  · intro out h
    simp only [handleCreate] at h
    exact Except.noConfusion h

/-- Witness for C1 at the unsupported backend status 418. -/
theorem c1_create_status_machine_witness :
    handleCreate "/api/" "posts" (fun _ : Unit => "1") ⟨some (), 418⟩ =
      .error (.invalidStatusCode 418 "posts" "Create") ∧
    errorResponseStatus (.invalidStatusCode 418 "posts" "Create") = 500 :=
  (c1_create_status_machine "/api/" "posts" (fun _ => "1") () 418).2.2.1
    (by decide) (by decide) (by decide)

/-- A successful Update response: an echoed object with a status, or a bare
status with no body. -/
inductive UpdateOutcome (α : Type) where
  | echo (obj : α) (status : Nat)
  | noBody (status : Nat)
deriving DecidableEq, Repr

/-- Translation of `handleUpdate` from the `res.source.Update` call onward:
`findOneAgain` is the outcome the transparent `FindOne` re-read would
produce.  Status 200 echoes the result, re-reading by id when the backend
returned no object; 202 and 204 forward the status with no body; every other
status is a formatted error. -/
def handleUpdateStatus {α : Type} (resourceName : String) (updateResp : Responder α)
    (findOneAgain : Except ApiError (Responder α)) :
    Except ApiError (UpdateOutcome α) :=
  if updateResp.status = 200 then
    match updateResp.result with
    | some obj => .ok (.echo obj 200)
    | none =>
      match findOneAgain with
      | .error e => .error e
      | .ok internalResponse =>
        match internalResponse.result with
        | none =>
          .error (.message
            ("Expected FindOne to return one object of resource " ++ resourceName))
        | some obj => .ok (.echo obj 200)
  else if updateResp.status = 202 then .ok (.noBody 202)
  else if updateResp.status = 204 then .ok (.noBody 204)
  else .error (.invalidStatusCode updateResp.status resourceName "Update")

/-- C5: when the backend Update reports 200 with no result object the
dispatcher re-reads by id — a failing re-read propagates as a normal error, a
re-read with no object is a named error, and a successful re-read is echoed
with status 200; a 200 with a result is echoed directly; Update accepts only
200, 202 and 204, reporting any other status as an error. -/
theorem c5_update_status_machine {α : Type} (resourceName : String) (obj : α)
    (st st2 : Nat) (e : ApiError) (reRead : Except ApiError (Responder α)) :
    (handleUpdateStatus resourceName ⟨none, 200⟩ (.error e) =
      (.error e : Except ApiError (UpdateOutcome α))) ∧
    (handleUpdateStatus resourceName ⟨none, 200⟩ (.ok ⟨(none : Option α), st2⟩) =
      .error (.message
        ("Expected FindOne to return one object of resource " ++ resourceName))) ∧
    (handleUpdateStatus resourceName ⟨none, 200⟩ (.ok ⟨some obj, st2⟩) =
      .ok (.echo obj 200)) ∧
    (handleUpdateStatus resourceName ⟨some obj, 200⟩ reRead = .ok (.echo obj 200)) ∧
    (handleUpdateStatus resourceName ⟨some obj, 202⟩ reRead = .ok (.noBody 202)) ∧
    (handleUpdateStatus resourceName ⟨some obj, 204⟩ reRead = .ok (.noBody 204)) ∧
    (st ≠ 200 → st ≠ 202 → st ≠ 204 →
      handleUpdateStatus resourceName ⟨some obj, st⟩ reRead =
        .error (.invalidStatusCode st resourceName "Update")) := by
  refine ⟨rfl, rfl, rfl, rfl, rfl, rfl, ?_⟩
  intro h1 h2 h3
  simp only [handleUpdateStatus]
  rw [if_neg h1, if_neg h2, if_neg h3]

/-- Witness for C5 at the unsupported backend status 418. -/
theorem c5_update_status_machine_witness :
    handleUpdateStatus "posts" ⟨some (), 418⟩
        (.ok (⟨some (), 200⟩ : Responder Unit)) =
      .error (.invalidStatusCode 418 "posts" "Update") :=
  (c5_update_status_machine "posts" () 418 200 (.message "x")
      (.ok ⟨some (), 200⟩)).2.2.2.2.2.2 (by decide) (by decide) (by decide)

/-- A JSON value as Go's `encoding/json` unmarshals into `interface{}`:
strings, numbers, booleans, null, arrays and objects. -/
inductive JSON where
  | str (s : String)
  | num (n : Int)
  | bool (b : Bool)
  | null
  | arr (elems : List JSON)
  | obj (fields : List (String × JSON))

/-- Key lookup in a JSON object field list (Go map indexing). -/
def lookupField (fields : List (String × JSON)) (k : String) : Option JSON :=
  (List.find? (fun kv => kv.1 == k) fields).map (fun kv => kv.2)

/-- The string id carried by a linkage entry, when the entry is an object
whose "id" field is a string (`casted["id"].(string)` after
`newRel.(map[string]interface{})`). -/
def entryId : JSON → Option String
  | .obj fields =>
    match lookupField fields "id" with
    | some (.str s) => some s
    | _ => none
  | _ => none

/-- Translation of the extraction loop of `handleAddToManyRelation` /
`handleDeleteToManyRelation`: collect the string id of every entry in order,
returning the loop's error on the first entry that is not an object or
carries no string id. -/
def extractIDs : List JSON → Except ApiError (List String)
  | [] => .ok []
  | e :: rest =>
    match e with
    | .obj fields =>
      match lookupField fields "id" with
      | some (.str newID) =>
        match extractIDs rest with
        | .error err => .error err
        | .ok ids => .ok (newID :: ids)
      | _ => .error (.message "no id field found inside data object")
    | _ => .error (.message "entry in data object invalid")

/-- A domain object as the relation-edit handlers see it: the ID list of each
named to-many relationship. -/
structure TargetObj where
  rels : List (String × List String)
deriving DecidableEq, Repr

/-- The ID list the object stores for a relationship name. -/
def TargetObj.relIDs (obj : TargetObj) (name : String) : List String :=
  match List.find? (fun kv => kv.1 == name) obj.rels with
  | some kv => kv.2
  | none => []

/-- Modelled from the spec: `AddToManyIDs` is an interface the domain type
implements outside this repository's sources; §4.4 states that Add appends
the new IDs. -/
def TargetObj.addToManyIDs (obj : TargetObj) (name : String) (ids : List String) :
    TargetObj :=
  ⟨List.map (fun kv => if kv.1 == name then (kv.1, kv.2 ++ ids) else kv) obj.rels⟩

/-- Modelled from the spec: `DeleteToManyIDs` is an interface the domain type
implements outside this repository's sources; §4.4 states that Delete removes
the given IDs by value. -/
def TargetObj.deleteToManyIDs (obj : TargetObj) (name : String) (ids : List String) :
    TargetObj :=
  ⟨List.map
    (fun kv => if kv.1 == name then (kv.1, kv.2.filter (fun i => !(ids.contains i))) else kv)
    obj.rels⟩

/-- The observable outcome of a relation-edit handler: the status written via
`w.WriteHeader` (none when an error is returned before any write), the error
returned to `handleError`, and the object handed to the backend `Update` call
(none when `Update` is never reached). -/
structure RelHandlerOutput where
  writtenStatus : Option Nat
  err : Option ApiError
  updateCalledWith : Option TargetObj
deriving DecidableEq, Repr

/-- Translation of `handleAddToManyRelation`: `findOne` is the outcome of the
initial `FindOne`, `unmarshalled` the unmarshalled request document,
`hasEditCapability` the `jsonapi.EditToManyRelations` assertion on the target
type, and `updateCall` the status and error the backend `Update` call
reports (the handler discards the status). -/
def handleAddToManyRelation (relationName : String)
    (findOne : Except ApiError TargetObj)
    (unmarshalled : Except ApiError (List (String × JSON)))
    (hasEditCapability : Bool) (updateCall : Nat × Option ApiError) :
    RelHandlerOutput :=
  match findOne with
  | .error e => ⟨none, some e, none⟩
  | .ok obj =>
    match unmarshalled with
    | .error e => ⟨none, some e, none⟩
    | .ok doc =>
      match lookupField doc "data" with
      | none => ⟨none, some (.message "Invalid object. Need a \"data\" object"), none⟩
      | some data =>
        match data with
        | .arr newRels =>
          match extractIDs newRels with
          | .error e => ⟨none, some e, none⟩
          | .ok newIDs =>
            if hasEditCapability then
              let newObj := obj.addToManyIDs relationName newIDs
              ⟨some 204, updateCall.2, some newObj⟩
            else
              ⟨none,
               some (.message "target struct must implement jsonapi.EditToManyRelations"),
               none⟩
        | _ =>
          ⟨none,
           some (.message
             "Data must be an array with \"id\" and \"type\" field to add new to-many relationships"),
           none⟩

/-- Translation of `handleDeleteToManyRelation` (same flow as the add
handler, removing the collected IDs instead). -/
def handleDeleteToManyRelation (relationName : String)
    (findOne : Except ApiError TargetObj)
    (unmarshalled : Except ApiError (List (String × JSON)))
    (hasEditCapability : Bool) (updateCall : Nat × Option ApiError) :
    RelHandlerOutput :=
  match findOne with
  | .error e => ⟨none, some e, none⟩
  | .ok obj =>
    match unmarshalled with
    | .error e => ⟨none, some e, none⟩
    | .ok doc =>
      match lookupField doc "data" with
      | none => ⟨none, some (.message "Invalid object. Need a \"data\" object"), none⟩
      | some data =>
        match data with
        | .arr newRels =>
          match extractIDs newRels with
          | .error e => ⟨none, some e, none⟩
          | .ok obsoleteIDs =>
            if hasEditCapability then
              let newObj := obj.deleteToManyIDs relationName obsoleteIDs
              ⟨some 204, updateCall.2, some newObj⟩
            else
              ⟨none,
               some (.message "target struct must implement jsonapi.EditToManyRelations"),
               none⟩
        | _ =>
          ⟨none,
           some (.message
             "Data must be an array with \"id\" and \"type\" field to add new to-many relationships"),
           none⟩

/-- Translation of `handleReplaceRelation`: `applyRelationship` stands for
`jsonapi.UnmarshalRelationshipsData` (outside this repository's sources),
`updateCall` for the status and error of the backend `Update` call, whose
status the handler discards before writing 204. -/
def handleReplaceRelation (findOne : Except ApiError TargetObj)
    (unmarshalled : Except ApiError (List (String × JSON)))
    (applyRelationship : TargetObj → JSON → Except ApiError TargetObj)
    (updateCall : Nat × Option ApiError) : RelHandlerOutput :=
  match findOne with
  | .error e => ⟨none, some e, none⟩
  | .ok obj =>
    match unmarshalled with
    | .error e => ⟨none, some e, none⟩
    | .ok doc =>
      match lookupField doc "data" with
      | none => ⟨none, some (.message "Invalid object. Need a \"data\" object"), none⟩
      | some data =>
        match applyRelationship obj data with
        | .error e => ⟨none, some e, none⟩
        | .ok newObj => ⟨some 204, updateCall.2, some newObj⟩

theorem extractIDs_ok (entries : List JSON)
    (h : ∀ e ∈ entries, (entryId e).isSome) :
    extractIDs entries = .ok (entries.map (fun e => (entryId e).getD "")) := by
  induction entries with
  | nil => rfl
  | cons hd rest ih =>
    have hhd : (entryId hd).isSome := h hd (List.mem_cons_self _ _)
    have hrest : ∀ e ∈ rest, (entryId e).isSome :=
      fun e he => h e (List.mem_cons_of_mem _ he)
    cases hd with
    | obj fields =>
      simp only [entryId] at hhd
      cases hfind : lookupField fields "id" with
      | none => rw [hfind] at hhd; simp at hhd
      | some v =>
        cases v with
        | str s =>
          simp only [extractIDs]
          rw [hfind, ih hrest]
          simp [entryId, hfind]
        | num n => rw [hfind] at hhd; simp at hhd
        | bool b => rw [hfind] at hhd; simp at hhd
        | null => rw [hfind] at hhd; simp at hhd
        | arr es => rw [hfind] at hhd; simp at hhd
        | obj fs => rw [hfind] at hhd; simp at hhd
    | str s => simp [entryId] at hhd
    | num n => simp [entryId] at hhd
    | bool b => simp [entryId] at hhd
    | null => simp [entryId] at hhd
    | arr es => simp [entryId] at hhd

theorem extractIDs_error (entries : List JSON) (e : JSON)
    (he : e ∈ entries) (hbad : entryId e = none) :
    ∃ msg, extractIDs entries = .error (.message msg) := by
  induction entries with
  | nil => cases he
  | cons hd rest ih =>
    by_cases hhd : (entryId hd).isSome
    · have hmem : e ∈ rest := by
        rcases List.mem_cons.1 he with rfl | hm
        · rw [hbad] at hhd; simp at hhd
        · exact hm
      obtain ⟨msg, hmsg⟩ := ih hmem
      cases hd with
      | obj fields =>
        simp only [entryId] at hhd
        cases hfind : lookupField fields "id" with
        | none => rw [hfind] at hhd; simp at hhd
        | some v =>
          cases v with
          | str s =>
            refine ⟨msg, ?_⟩
            simp only [extractIDs]
            rw [hfind, hmsg]
          | num n => rw [hfind] at hhd; simp at hhd
          | bool b => rw [hfind] at hhd; simp at hhd
          | null => rw [hfind] at hhd; simp at hhd
          | arr es => rw [hfind] at hhd; simp at hhd
          | obj fs => rw [hfind] at hhd; simp at hhd
      | str s => simp [entryId] at hhd
      | num n => simp [entryId] at hhd
      | bool b => simp [entryId] at hhd
      | null => simp [entryId] at hhd
      | arr es => simp [entryId] at hhd
    · cases hd with
      | obj fields =>
        cases hfind : lookupField fields "id" with
        | none =>
          refine ⟨"no id field found inside data object", ?_⟩
          simp only [extractIDs]
          rw [hfind]
        | some v =>
          cases v with
          | str s => exact absurd (by simp [entryId, hfind]) hhd
          | num n =>
            refine ⟨"no id field found inside data object", ?_⟩
            simp only [extractIDs]
            rw [hfind]
          | bool b =>
            refine ⟨"no id field found inside data object", ?_⟩
            simp only [extractIDs]
            rw [hfind]
          | null =>
            refine ⟨"no id field found inside data object", ?_⟩
            simp only [extractIDs]
            rw [hfind]
          | arr es =>
            refine ⟨"no id field found inside data object", ?_⟩
            simp only [extractIDs]
            rw [hfind]
          | obj fs =>
            refine ⟨"no id field found inside data object", ?_⟩
            simp only [extractIDs]
            rw [hfind]
      | str s => exact ⟨"entry in data object invalid", rfl⟩
      | num n => exact ⟨"entry in data object invalid", rfl⟩
      | bool b => exact ⟨"entry in data object invalid", rfl⟩
      | null => exact ⟨"entry in data object invalid", rfl⟩
      | arr es => exact ⟨"entry in data object invalid", rfl⟩

theorem find_map_rel (rels : List (String × List String)) (name : String)
    (f : List String → List String) :
    List.find? (fun kv => kv.1 == name)
      (List.map (fun kv => if kv.1 == name then (kv.1, f kv.2) else kv) rels) =
    (List.find? (fun kv => kv.1 == name) rels).map (fun kv => (kv.1, f kv.2)) := by
  induction rels with
  | nil => rfl
  | cons hd rest ih =>
    simp only [List.map_cons, List.find?_cons]
    cases h : (hd.1 == name) with
    | true =>
      have hscrut : ((if true = true then (hd.1, f hd.2) else hd).1 == name) = true := by
        rw [if_pos rfl]; exact h
      rw [hscrut]
      rfl
    | false =>
      have hscrut : ((if false = true then (hd.1, f hd.2) else hd).1 == name) = false := by
        rw [if_neg (by simp)]; exact h
      rw [hscrut]
      exact ih

theorem relIDs_addToManyIDs (obj : TargetObj) (name : String) (ids : List String)
    (h : name ∈ List.map Prod.fst obj.rels) :
    (obj.addToManyIDs name ids).relIDs name = obj.relIDs name ++ ids := by
  have hsome : (List.find? (fun kv => kv.1 == name) obj.rels).isSome := by
    rw [List.find?_isSome]
    obtain ⟨kv, hkv, hfst⟩ := List.mem_map.1 h
    exact ⟨kv, hkv, by simp [hfst]⟩
  unfold TargetObj.relIDs TargetObj.addToManyIDs
  simp only []
  rw [find_map_rel obj.rels name (fun l => l ++ ids)]
  cases hfind : List.find? (fun kv => kv.1 == name) obj.rels with
  | none => rw [hfind] at hsome; simp at hsome
  | some kv => simp

theorem relIDs_deleteToManyIDs (obj : TargetObj) (name : String)
    (ids : List String) :
    (obj.deleteToManyIDs name ids).relIDs name =
      (obj.relIDs name).filter (fun i => !(ids.contains i)) := by
  unfold TargetObj.relIDs TargetObj.deleteToManyIDs
  simp only []
  rw [find_map_rel obj.rels name (fun l => l.filter (fun i => !(ids.contains i)))]
  cases hfind : List.find? (fun kv => kv.1 == name) obj.rels with
  | none => simp
  | some kv => simp

/-- C6: for to-many relationship add and delete requests over a document
whose "data" value is the given entry array: any entry that is not an object
carrying a string id fails the whole operation before any ID mutation — no
status written, an error returned, no object handed to `Update`; a missing
to-many-edit capability fails with the capability error; otherwise Add hands
the backend the object with all given IDs appended to the named relationship
and Delete the object with the given IDs removed by value. -/
theorem c6_to_many_edit_atomicity (relationName : String) (obj : TargetObj)
    (doc : List (String × JSON)) (entries : List JSON) (cap : Bool)
    (upd : Nat × Option ApiError)
    (hdata : lookupField doc "data" = some (.arr entries)) :
    (∀ e ∈ entries, entryId e = none →
      (handleAddToManyRelation relationName (.ok obj) (.ok doc) cap
        upd).writtenStatus = none ∧
      (handleAddToManyRelation relationName (.ok obj) (.ok doc) cap
        upd).updateCalledWith = none ∧
      (handleAddToManyRelation relationName (.ok obj) (.ok doc) cap
        upd).err ≠ none ∧
      (handleDeleteToManyRelation relationName (.ok obj) (.ok doc) cap
        upd).writtenStatus = none ∧
      (handleDeleteToManyRelation relationName (.ok obj) (.ok doc) cap
        upd).updateCalledWith = none ∧
      (handleDeleteToManyRelation relationName (.ok obj) (.ok doc) cap
        upd).err ≠ none) ∧
    ((∀ e ∈ entries, (entryId e).isSome) → cap = false →
      handleAddToManyRelation relationName (.ok obj) (.ok doc) cap upd =
        ⟨none,
         some (.message "target struct must implement jsonapi.EditToManyRelations"),
         none⟩ ∧
      handleDeleteToManyRelation relationName (.ok obj) (.ok doc) cap upd =
        ⟨none,
         some (.message "target struct must implement jsonapi.EditToManyRelations"),
         none⟩) ∧
    ((∀ e ∈ entries, (entryId e).isSome) → cap = true →
      handleAddToManyRelation relationName (.ok obj) (.ok doc) cap upd =
        ⟨some 204, upd.2,
         some (obj.addToManyIDs relationName
           (entries.map (fun e => (entryId e).getD "")))⟩ ∧
      handleDeleteToManyRelation relationName (.ok obj) (.ok doc) cap upd =
        ⟨some 204, upd.2,
         some (obj.deleteToManyIDs relationName
           (entries.map (fun e => (entryId e).getD "")))⟩) ∧
    (∀ ids, relationName ∈ List.map Prod.fst obj.rels →
      (obj.addToManyIDs relationName ids).relIDs relationName =
        obj.relIDs relationName ++ ids) ∧
    (∀ ids, (obj.deleteToManyIDs relationName ids).relIDs relationName =
      (obj.relIDs relationName).filter (fun i => !(ids.contains i))) := by
  refine ⟨?_, ?_, ?_,
    fun ids h => relIDs_addToManyIDs obj relationName ids h,
    fun ids => relIDs_deleteToManyIDs obj relationName ids⟩
  · intro e he hbad
    obtain ⟨msg, hmsg⟩ := extractIDs_error entries e he hbad
    simp only [handleAddToManyRelation, handleDeleteToManyRelation, hdata, hmsg]
    simp
  · intro hids hcap
    subst hcap
    simp only [handleAddToManyRelation, handleDeleteToManyRelation, hdata,
      extractIDs_ok entries hids]
    simp
  · intro hids hcap
    subst hcap
    simp only [handleAddToManyRelation, handleDeleteToManyRelation, hdata,
      extractIDs_ok entries hids]
    simp

/-- Witness for C6 on the success path: adding and deleting the ID "2" on the
"comments" relationship of an object storing ["1"]. -/
theorem c6_to_many_edit_atomicity_witness :
    handleAddToManyRelation "comments"
        (.ok (⟨[("comments", ["1"])]⟩ : TargetObj))
        (.ok [("data", .arr [.obj [("id", .str "2")]])]) true (200, none) =
      ⟨some 204, none,
       some (TargetObj.addToManyIDs ⟨[("comments", ["1"])]⟩ "comments" ["2"])⟩ ∧
    handleDeleteToManyRelation "comments"
        (.ok (⟨[("comments", ["1"])]⟩ : TargetObj))
        (.ok [("data", .arr [.obj [("id", .str "2")]])]) true (200, none) =
      ⟨some 204, none,
       some (TargetObj.deleteToManyIDs ⟨[("comments", ["1"])]⟩ "comments" ["2"])⟩ :=
  (c6_to_many_edit_atomicity "comments" ⟨[("comments", ["1"])]⟩
      [("data", .arr [.obj [("id", .str "2")]])] [.obj [("id", .str "2")]]
      true (200, none) rfl).2.2.1 (by decide) rfl

/-- C9: relationship replace (PATCH), add (POST) and delete (DELETE) requests
write status 204 No Content whatever status the backend reports for the
resulting Update call. -/
theorem c9_relationship_edits_write_204 (findOneObj : TargetObj)
    (doc : List (String × JSON)) (data : JSON) (newObj : TargetObj)
    (applyRelationship : TargetObj → JSON → Except ApiError TargetObj)
    (entries : List JSON) (relationName : String)
    (updateStatus : Nat) (updateErr : Option ApiError) :
    (lookupField doc "data" = some data →
      applyRelationship findOneObj data = .ok newObj →
      (handleReplaceRelation (.ok findOneObj) (.ok doc) applyRelationship
        (updateStatus, updateErr)).writtenStatus = some 204) ∧
    (lookupField doc "data" = some (.arr entries) →
      (∀ e ∈ entries, (entryId e).isSome) →
      (handleAddToManyRelation relationName (.ok findOneObj) (.ok doc) true
        (updateStatus, updateErr)).writtenStatus = some 204 ∧
      (handleDeleteToManyRelation relationName (.ok findOneObj) (.ok doc) true
        (updateStatus, updateErr)).writtenStatus = some 204) := by
  constructor
  · intro hdata happly
    simp only [handleReplaceRelation, hdata, happly]
  · intro hdata hids
    simp only [handleAddToManyRelation, handleDeleteToManyRelation, hdata,
      extractIDs_ok entries hids]
    simp

/-- Witness for C9: the three relationship-edit handlers write 204 even when
the backend Update reports status 500. -/
theorem c9_relationship_edits_write_204_witness :
    (handleReplaceRelation (.ok (⟨[("comments", ["1"])]⟩ : TargetObj))
        (.ok [("data", .null)]) (fun o _ => .ok o) (500, none)).writtenStatus =
      some 204 ∧
    (handleAddToManyRelation "comments"
        (.ok (⟨[("comments", ["1"])]⟩ : TargetObj))
        (.ok [("data", .arr [.obj [("id", .str "2")]])]) true
        (500, none)).writtenStatus = some 204 ∧
    (handleDeleteToManyRelation "comments"
        (.ok (⟨[("comments", ["1"])]⟩ : TargetObj))
        (.ok [("data", .arr [.obj [("id", .str "2")]])]) true
        (500, none)).writtenStatus = some 204 :=
  ⟨(c9_relationship_edits_write_204 ⟨[("comments", ["1"])]⟩ [("data", .null)]
      .null ⟨[("comments", ["1"])]⟩ (fun o _ => .ok o) [] "comments" 500
      none).1 rfl rfl,
   ((c9_relationship_edits_write_204 ⟨[("comments", ["1"])]⟩
      [("data", .arr [.obj [("id", .str "2")]])] .null ⟨[("comments", ["1"])]⟩
      (fun o _ => .ok o) [.obj [("id", .str "2")]] "comments" 500 none).2
      rfl (by decide)).1,
   ((c9_relationship_edits_write_204 ⟨[("comments", ["1"])]⟩
      [("data", .arr [.obj [("id", .str "2")]])] .null ⟨[("comments", ["1"])]⟩
      (fun o _ => .ok o) [.obj [("id", .str "2")]] "comments" 500 none).2
      rfl (by decide)).2⟩

/-- A static relationship declaration (`jsonapi.Reference`): target type and
relationship name.  The to-one/to-many cardinality flag comes from the
spec's data model ("relationship declarations (to-one/to-many), each naming
a target resource type"); the jsonapi package sources are not under src. -/
structure Reference where
  type : String
  name : String
  toMany : Bool
deriving DecidableEq, Repr

/-- One concrete linkage instance (`jsonapi.ReferenceID`): target type,
relationship name and target ID. -/
structure ReferenceID where
  type : String
  name : String
  id : String
deriving DecidableEq, Repr

/-- A relationship's `data` value: a single `(type, id)` linkage object for
to-one (none when no linkage is present), an ordered sequence for to-many. -/
inductive Linkage where
  | one (l : Option (String × String))
  | many (ls : List (String × String))
deriving DecidableEq, Repr

/-- Modelled from the spec: the relationship construction of
`jsonapi.Marshal` (the jsonapi package implementation is not under src;
spec §4.2): for each declared Reference, collect all ReferenceIDs whose
name matches, emitting a single linkage object for to-one and an ordered
sequence preserving source order for to-many — grouping keyed strictly on
relationship name, never on target type. -/
def marshalRelationships (refs : List Reference) (ids : List ReferenceID) :
    List (String × Linkage) :=
  refs.map (fun ref =>
    let matching := (ids.filter (fun rid => rid.name == ref.name)).map
      (fun rid => (rid.type, rid.id))
    (ref.name, if ref.toMany then .many matching else .one matching.head?))

/-- The `Node` domain type of `marshal_same_type_test.go`. -/
structure Node where
  id : String
  content : String
  motherID : String
  childIDs : List String
  abandonedChildIDs : List String
deriving DecidableEq, Repr

/-- Translation of `Node.GetReferences`: three relationships sharing the
target type "nodes" — "mother-node" to-one, "child-nodes" and
"abandoned-child-nodes" to-many. -/
def Node.getReferences (_ : Node) : List Reference :=
  [⟨"nodes", "mother-node", false⟩,
   ⟨"nodes", "child-nodes", true⟩,
   ⟨"nodes", "abandoned-child-nodes", true⟩]

/-- Translation of `Node.GetReferencedIDs`: the mother ID when non-empty,
then the child IDs, then the abandoned-child IDs, in source order. -/
def Node.getReferencedIDs (n : Node) : List ReferenceID :=
  (if n.motherID ≠ "" then [⟨"nodes", "mother-node", n.motherID⟩] else []) ++
  n.childIDs.map (fun i => ⟨"nodes", "child-nodes", i⟩) ++
  n.abandonedChildIDs.map (fun i => ⟨"nodes", "abandoned-child-nodes", i⟩)

/-- The test node of `marshal_same_type_test.go`. -/
def theNode : Node :=
  ⟨"super", "I am the Super Node", "1337", ["666", "42"], ["2", "1"]⟩

/-- C7: relationship grouping keys strictly on relationship name — one entry
per declared reference in declaration order even when references share a
target type, each to-many entry holding exactly the ReferenceIDs of that
name in source order — so the test node with to-one "mother-node" and
to-many "child-nodes" and "abandoned-child-nodes", all of target type
"nodes", marshals into three separate relationship entries with correct
cardinality and order. -/
theorem c7_marshal_groups_by_name :
    (∀ (refs : List Reference) (ids : List ReferenceID),
      (marshalRelationships refs ids).map Prod.fst = refs.map Reference.name) ∧
    (∀ (refs : List Reference) (ids : List ReferenceID) (ref : Reference),
      ref ∈ refs → ref.toMany = true →
      (ref.name, Linkage.many
        ((ids.filter (fun rid => rid.name == ref.name)).map
          (fun rid => (rid.type, rid.id)))) ∈ marshalRelationships refs ids) ∧
    (marshalRelationships theNode.getReferences theNode.getReferencedIDs =
      [("mother-node", .one (some ("nodes", "1337"))),
       ("child-nodes", .many [("nodes", "666"), ("nodes", "42")]),
       ("abandoned-child-nodes", .many [("nodes", "2"), ("nodes", "1")])]) := by
  refine ⟨?_, ?_, by decide⟩
  · intro refs ids
    unfold marshalRelationships
    rw [List.map_map]
    rfl
  · intro refs ids ref href htoMany
    exact List.mem_map.2 ⟨ref, href, by simp [htoMany]⟩

/-- Witness for C7: the "child-nodes" to-many entry of the test node. -/
theorem c7_marshal_groups_by_name_witness :
    ("child-nodes", Linkage.many [("nodes", "666"), ("nodes", "42")]) ∈
      marshalRelationships theNode.getReferences theNode.getReferencedIDs :=
  c7_marshal_groups_by_name.2.1 theNode.getReferences theNode.getReferencedIDs
    ⟨"nodes", "child-nodes", true⟩ (by decide) rfl

/-- A codec of the marshaler registry: a registered content marshaler, or
the built-in `JSONContentMarshaler` default. -/
inductive Codec where
  | registered (tag : String)
  | jsonDefault
deriving DecidableEq, Repr

/-- The fixed default media type `defaultContentTypHeader` of `api.go`. -/
def defaultContentTypHeader : String := "application/vnd.api+json"

/-- Registry lookup `marshalers[contentType]` (none when unregistered). -/
def lookupCodec (registry : List (String × Codec)) (ct : String) :
    Option Codec :=
  (List.find? (fun kv => kv.1 == ct) registry).map (fun kv => kv.2)

/-- The headers codec selection reads: the `Accept` and `Content-Type`
header value lists, `none` when the header is absent. -/
structure NegRequest where
  accept : Option (List String)
  contentType : Option (List String)

/-- Translation of `selectContentMarshaler`.  `negotiate` stands for the
external `httputil.NegotiateContentType` over the registered content types,
returning the negotiated type or `none` when negotiation fails (the Go call
then yields its fallback argument, the fixed default media type).  A nil
marshaler after either branch — including an unregistered exact
`Content-Type` — falls back to the built-in default codec. -/
def selectContentMarshaler (negotiate : List String → Option String)
    (registry : List (String × Codec)) (r : NegRequest) : Codec × String :=
  let picked : Option (String × Option Codec) :=
    match r.accept with
    | some _ =>
      let cts := registry.map Prod.fst
      let ct := (negotiate cts).getD defaultContentTypHeader
      some (ct, lookupCodec registry ct)
    | none =>
      match r.contentType with
      | some (ct :: _) => some (ct, lookupCodec registry ct)
      | _ => none
  match picked with
  | some (ct, some codec) => (codec, ct)
  | _ => (.jsonDefault, defaultContentTypHeader)

/-- Translation of `unmarshalRequest`: the request body is decoded by the
codec `selectContentMarshaler` picks for the request. -/
def unmarshalRequest (negotiate : List String → Option String)
    (registry : List (String × Codec)) (r : NegRequest) (body : String)
    (decode : Codec → String → Except ApiError (List (String × JSON))) :
    Except ApiError (List (String × JSON)) :=
  decode (selectContentMarshaler negotiate registry r).1 body

/-- Translation of `marshalResponse`: the response is encoded by the codec
`selectContentMarshaler` picks for the request, and the response
`Content-Type` is the selected content type. -/
def marshalResponse (negotiate : List String → Option String)
    (registry : List (String × Codec)) (r : NegRequest) (payload : JSON)
    (encode : Codec → JSON → String) : String × String :=
  (encode (selectContentMarshaler negotiate registry r).1 payload,
   (selectContentMarshaler negotiate registry r).2)

/-- C8: codec selection — with an Accept header, negotiation runs over the
registered content types, the fixed default media type standing in when
negotiation fails, and the selected codec is the registry entry of the
resulting type (the built-in default when that type is unregistered);
with no Accept but a Content-Type header, the codec registered under exactly
that value; with neither header the default codec; and the same selection
function governs both the codec that decodes the request body and the codec
and content type of the response. -/
theorem c8_content_negotiation (negotiate : List String → Option String)
    (registry : List (String × Codec)) (r : NegRequest) :
    (∀ accepts ct codec, r.accept = some accepts →
      negotiate (registry.map Prod.fst) = some ct →
      lookupCodec registry ct = some codec →
      selectContentMarshaler negotiate registry r = (codec, ct)) ∧
    (∀ accepts codec, r.accept = some accepts →
      negotiate (registry.map Prod.fst) = none →
      lookupCodec registry defaultContentTypHeader = some codec →
      selectContentMarshaler negotiate registry r =
        (codec, defaultContentTypHeader)) ∧
    (∀ accepts ct, r.accept = some accepts →
      negotiate (registry.map Prod.fst) = some ct →
      lookupCodec registry ct = none →
      selectContentMarshaler negotiate registry r =
        (.jsonDefault, defaultContentTypHeader)) ∧
    (∀ ct rest codec, r.accept = none →
      r.contentType = some (ct :: rest) →
      lookupCodec registry ct = some codec →
      selectContentMarshaler negotiate registry r = (codec, ct)) ∧
    (r.accept = none → r.contentType = none →
      selectContentMarshaler negotiate registry r =
        (.jsonDefault, defaultContentTypHeader)) ∧
    (∀ body decode payload encode,
      unmarshalRequest negotiate registry r body decode =
        decode (selectContentMarshaler negotiate registry r).1 body ∧
      marshalResponse negotiate registry r payload encode =
        (encode (selectContentMarshaler negotiate registry r).1 payload,
         (selectContentMarshaler negotiate registry r).2)) := by
  refine ⟨?_, ?_, ?_, ?_, ?_, fun body decode payload encode => ⟨rfl, rfl⟩⟩
  · intro accepts ct codec hacc hneg hlook
    simp only [selectContentMarshaler, hacc, hneg, Option.getD_some, hlook]
  · intro accepts codec hacc hneg hlook
    simp only [selectContentMarshaler, hacc, hneg, Option.getD_none, hlook]
  · intro accepts ct hacc hneg hlook
    simp only [selectContentMarshaler, hacc, hneg, Option.getD_some, hlook]
  · intro ct rest codec hacc hct hlook
    simp only [selectContentMarshaler, hacc, hct, hlook]
  · intro hacc hct
    simp only [selectContentMarshaler, hacc, hct]

/-- Witness for C8: failed negotiation over a registry holding the default
media type selects that registry entry at the default type. -/
theorem c8_content_negotiation_witness :
    selectContentMarshaler (fun _ => none)
        [(defaultContentTypHeader, .registered "api")] ⟨some ["text/html"], none⟩ =
      (.registered "api", defaultContentTypHeader) :=
  (c8_content_negotiation (fun _ => none)
      [(defaultContentTypHeader, .registered "api")]
      ⟨some ["text/html"], none⟩).2.1 ["text/html"] (.registered "api")
    rfl rfl rfl

end Api2go
